import Mathlib

/-!
Verification of the password-reset token scheme of the exchange backend
(`api/views.py`): the stateless token service (`generate_token` /
`check_token` of `PasswordResetRequest` / `PasswordResetConfirm`) and the
two HTTP handlers that call it.

The embedding models Python's unbounded integers as `Int` (timestamps) and
`Nat` (bytes and machine words, with explicit `% 2^32` where the SHA-256
compression function wraps).  Python's `str(int)` is embedded as `intRepr`,
`str.encode()` as `utf8Encode`, `hashlib.sha256(..).hexdigest()` as
`bytesToHex (sha256 ..)`, and Django's `urlsafe_base64_encode` as
`b64urlEncode`.
-/

namespace ExchangeApi

/-! ### Decimal representation of integers (Python `str` / f-string of an int) -/

/-- The decimal digit character for `d` (only meaningful for `d < 10`). -/
def digitChar (d : Nat) : Char :=
  match d with
  | 0 => '0' | 1 => '1' | 2 => '2' | 3 => '3' | 4 => '4'
  | 5 => '5' | 6 => '6' | 7 => '7' | 8 => '8' | _ => '9'

/-- Big-endian decimal digits of `n`, with explicit fuel for structural
recursion; correct whenever `n < fuel`. -/
def natDigitsAux : Nat → Nat → List Char
  | 0, _ => []
  | fuel + 1, n =>
    if n < 10 then [digitChar n]
    else natDigitsAux fuel (n / 10) ++ [digitChar (n % 10)]

/-- Decimal representation of a natural number, as Python's `str`. -/
def natRepr (n : Nat) : String := ⟨natDigitsAux (n + 1) n⟩

/-- Decimal representation of an integer, as Python's `str` (a leading `-`
for negative values). -/
def intRepr (i : Int) : String :=
  if i < 0 then "-" ++ natRepr (-i).toNat else natRepr i.toNat

/-- Evaluate a big-endian digit list back to the number it denotes. -/
def decimalValue (cs : List Char) : Nat :=
  cs.foldl (fun a c => 10 * a + (c.toNat - 48)) 0

theorem digitChar_toNat (d : Nat) (h : d < 10) : (digitChar d).toNat = 48 + d := by
  interval_cases d <;> decide

theorem digitChar_ne_dash (d : Nat) : digitChar d ≠ '-' := by
  unfold digitChar
  split <;> decide

theorem decimalValue_natDigitsAux (fuel : Nat) :
    ∀ n, n < fuel → decimalValue (natDigitsAux fuel n) = n := by
  induction fuel with
  | zero => intro n h; omega
  | succ f ih =>
    intro n h
    unfold natDigitsAux
    by_cases h10 : n < 10
    · simp only [if_pos h10]
      simp [decimalValue, List.foldl_cons, digitChar_toNat n h10]
    · simp only [if_neg h10]
      have hdiv : n / 10 < f := by omega
      have hv := ih (n / 10) hdiv
      simp only [decimalValue, List.foldl_append] at *
      simp only [List.foldl_cons, List.foldl_nil, hv,
        digitChar_toNat (n % 10) (by omega)]
      omega

theorem natDigitsAux_ne_nil (f n : Nat) : natDigitsAux (f + 1) n ≠ [] := by
  unfold natDigitsAux
  split
  · simp
  · simp

theorem natDigitsAux_mem_ne_dash (fuel : Nat) :
    ∀ n c, c ∈ natDigitsAux fuel n → c ≠ '-' := by
  induction fuel with
  | zero => intro n c h; simp [natDigitsAux] at h
  | succ f ih =>
    intro n c h
    unfold natDigitsAux at h
    split at h
    · simp at h
      subst h; exact digitChar_ne_dash _
    · rw [List.mem_append] at h
      rcases h with h | h
      · exact ih _ _ h
      · simp at h
        subst h; exact digitChar_ne_dash _

theorem natRepr_injective : Function.Injective natRepr := by
  intro m n h
  have hd : natDigitsAux (m + 1) m = natDigitsAux (n + 1) n :=
    congrArg String.data h
  have hm := decimalValue_natDigitsAux (m + 1) m (by omega)
  have hn := decimalValue_natDigitsAux (n + 1) n (by omega)
  rw [hd] at hm
  omega

theorem natRepr_ne_dash_head (n : Nat) : '-' ∉ (natRepr n).data := by
  intro hmem
  exact natDigitsAux_mem_ne_dash (n + 1) n '-' hmem rfl

theorem intRepr_injective : Function.Injective intRepr := by
  intro i j h
  unfold intRepr at h
  by_cases hi : i < 0 <;> by_cases hj : j < 0
  · rw [if_pos hi, if_pos hj] at h
    have : natRepr (-i).toNat = natRepr (-j).toNat := by
      have := congrArg String.data h
      simp only [String.data_append] at this
      have := List.append_cancel_left this
      exact String.ext this
    have := natRepr_injective this
    omega
  · rw [if_pos hi, if_neg hj] at h
    exfalso
    have hdata := congrArg String.data h
    simp only [String.data_append] at hdata
    have hdash : ('-' : Char) ∈ ("-" : String).data ++ (natRepr (-i).toNat).data :=
      List.mem_append_left _ (by decide)
    rw [hdata] at hdash
    exact natRepr_ne_dash_head j.toNat hdash
  · rw [if_neg hi, if_pos hj] at h
    exfalso
    have hdata := congrArg String.data h
    simp only [String.data_append] at hdata
    have hdash : ('-' : Char) ∈ ("-" : String).data ++ (natRepr (-j).toNat).data :=
      List.mem_append_left _ (by decide)
    rw [← hdata] at hdash
    exact natRepr_ne_dash_head i.toNat hdash
  · rw [if_neg hi, if_neg hj] at h
    have := natRepr_injective h
    omega

/-! ### UTF-8 encoding (Python `str.encode()`) -/

/-- UTF-8 bytes of a single code point. -/
def utf8EncodeChar (c : Char) : List Nat :=
  let n := c.toNat
  if n < 128 then [n]
  else if n < 2048 then
    [192 + n / 64, 128 + n % 64]
  else if n < 65536 then
    [224 + n / 4096, 128 + n / 64 % 64, 128 + n % 64]
  else
    [240 + n / 262144, 128 + n / 4096 % 64, 128 + n / 64 % 64, 128 + n % 64]

/-- UTF-8 bytes of a string, modelling Python's `s.encode()`. -/
def utf8Encode (s : String) : List Nat :=
  s.data.foldr (fun c acc => utf8EncodeChar c ++ acc) []

/-! ### SHA-256 (`hashlib.sha256`), FIPS 180-4, words as `Nat` mod 2^32 -/

/-- 2^32, the word modulus of SHA-256. -/
def w32 : Nat := 4294967296

/-- Rotate a 32-bit word right by `r` bits. -/
def rotr (r n : Nat) : Nat := n / 2 ^ r + n % 2 ^ r * 2 ^ (32 - r)

/-- Bitwise complement within 32 bits. -/
def not32 (n : Nat) : Nat := 4294967295 - n

/-- SHA-256 `Ch` function. -/
def shaCh (e f g : Nat) : Nat := (e &&& f) ^^^ (not32 e &&& g)

/-- SHA-256 `Maj` function. -/
def shaMaj (a b c : Nat) : Nat := (a &&& b) ^^^ (a &&& c) ^^^ (b &&& c)

/-- SHA-256 big sigma 0. -/
def bsig0 (x : Nat) : Nat := rotr 2 x ^^^ rotr 13 x ^^^ rotr 22 x

/-- SHA-256 big sigma 1. -/
def bsig1 (x : Nat) : Nat := rotr 6 x ^^^ rotr 11 x ^^^ rotr 25 x

/-- SHA-256 small sigma 0. -/
def ssig0 (x : Nat) : Nat := rotr 7 x ^^^ rotr 18 x ^^^ (x / 2 ^ 3)

/-- SHA-256 small sigma 1. -/
def ssig1 (x : Nat) : Nat := rotr 17 x ^^^ rotr 19 x ^^^ (x / 2 ^ 10)

/-- The 64 SHA-256 round constants of FIPS 180-4, written in decimal. -/
def shaK : List Nat :=
  [1116352408, 1899447441, 3049323471, 3921009573, 961987163,
   1508970993, 2453635748, 2870763221, 3624381080, 310598401,
   607225278, 1426881987, 1925078388, 2162078206, 2614888103,
   3248222580, 3835390401, 4022224774, 264347078, 604807628,
   770255983, 1249150122, 1555081692, 1996064986, 2554220882,
   2821834349, 2952996808, 3210313671, 3336571891, 3584528711,
   113926993, 338241895, 666307205, 773529912, 1294757372,
   1396182291, 1695183700, 1986661051, 2177026350, 2456956037,
   2730485921, 2820302411, 3259730800, 3345764771, 3516065817,
   3600352804, 4094571909, 275423344, 430227734, 506948616,
   659060556, 883997877, 958139571, 1322822218, 1537002063,
   1747873779, 1955562222, 2024104815, 2227730452, 2361852424,
   2428436474, 2756734187, 3204031479, 3329325298]

/-- The SHA-256 initial hash value of FIPS 180-4, written in decimal. -/
def shaH0 : List Nat :=
  [1779033703, 3144134277, 1013904242, 2773480762,
   1359893119, 2600822924, 528734635, 1541459225]

/-- Big-endian 8-byte encoding of `n` (the 64-bit message length). -/
def be64 (n : Nat) : List Nat :=
  [n / 2 ^ 56 % 256, n / 2 ^ 48 % 256, n / 2 ^ 40 % 256, n / 2 ^ 32 % 256,
   n / 2 ^ 24 % 256, n / 2 ^ 16 % 256, n / 2 ^ 8 % 256, n % 256]

/-- SHA-256 padding: append `0x80`, zeros to 56 mod 64, and the bit length. -/
def padMsg (msg : List Nat) : List Nat :=
  let l := msg.length
  msg ++ [128] ++ List.replicate ((119 - l % 64) % 64) 0 ++ be64 (8 * l)

/-- Split a byte list into 64-byte blocks. -/
def toBlocks (l : List Nat) : List (List Nat) :=
  if h : l = [] then []
  else
    have : (List.drop 64 l).length < l.length := by
      rw [List.length_drop]
      cases l with
      | nil => exact absurd rfl h
      | cons a t => simp; omega
    l.take 64 :: toBlocks (l.drop 64)
termination_by l.length

/-- The 16 big-endian 32-bit words of a 64-byte block. -/
def blockWords (block : List Nat) : List Nat :=
  (List.range 16).map fun i =>
    block.getD (4 * i) 0 * 16777216 + block.getD (4 * i + 1) 0 * 65536 +
      block.getD (4 * i + 2) 0 * 256 + block.getD (4 * i + 3) 0

/-- Extend the 16-word message schedule by `n` further words. -/
def extendSchedule : Nat → List Nat → List Nat
  | 0, ws => ws
  | n + 1, ws =>
    extendSchedule n (ws ++
      [(ssig1 (ws.getD (ws.length - 2) 0) + ws.getD (ws.length - 7) 0 +
        ssig0 (ws.getD (ws.length - 15) 0) + ws.getD (ws.length - 16) 0) % w32])

/-- One round of the SHA-256 compression function. -/
def compressStep (st : List Nat) (kw : Nat × Nat) : List Nat :=
  match st with
  | [a, b, c, d, e, f, g, h] =>
    let t1 := (h + bsig1 e + shaCh e f g + kw.1 + kw.2) % w32
    let t2 := (bsig0 a + shaMaj a b c) % w32
    [(t1 + t2) % w32, a, b, c, (d + t1) % w32, e, f, g]
  | _ => st

/-- Process one 64-byte block, updating the running hash. -/
def processBlock (hs : List Nat) (block : List Nat) : List Nat :=
  let ws := extendSchedule 48 (blockWords block)
  let st := (shaK.zip ws).foldl compressStep hs
  List.zipWith (fun x y => (x + y) % w32) hs st

/-- SHA-256 digest: 32 bytes from a byte message. -/
def sha256 (msg : List Nat) : List Nat :=
  let hs := (toBlocks (padMsg msg)).foldl processBlock shaH0
  hs.foldr (fun wd acc =>
    wd / 2 ^ 24 % 256 :: wd / 2 ^ 16 % 256 :: wd / 2 ^ 8 % 256 :: wd % 256 :: acc) []

/-- The hexadecimal digit character for `d < 16`. -/
def hexChar (d : Nat) : Char :=
  match d with
  | 0 => '0' | 1 => '1' | 2 => '2' | 3 => '3' | 4 => '4'
  | 5 => '5' | 6 => '6' | 7 => '7' | 8 => '8' | 9 => '9'
  | 10 => 'a' | 11 => 'b' | 12 => 'c' | 13 => 'd' | 14 => 'e' | _ => 'f'

/-- Lower-case hex string of a byte list (Python's `.hexdigest()`). -/
def bytesToHex (bs : List Nat) : String :=
  ⟨bs.foldr (fun b acc => hexChar (b / 16) :: hexChar (b % 16) :: acc) []⟩

/-! ### URL-safe base64 (Django `urlsafe_base64_encode`, unpadded) -/

/-- The URL-safe base64 alphabet character for `d < 64`. -/
def b64Char (d : Nat) : Char :=
  if d < 26 then Char.ofNat (65 + d)
  else if d < 52 then Char.ofNat (97 + (d - 26))
  else if d < 62 then Char.ofNat (48 + (d - 52))
  else if d = 62 then '-' else '_'

/-- URL-safe base64 characters of a byte list, without `=` padding
(Django strips the padding). -/
def b64CharsOf : List Nat → List Char
  | [] => []
  | [b1] => [b64Char (b1 / 4), b64Char (b1 % 4 * 16)]
  | [b1, b2] => [b64Char (b1 / 4), b64Char (b1 % 4 * 16 + b2 / 16),
                 b64Char (b2 % 16 * 4)]
  | b1 :: b2 :: b3 :: rest =>
    b64Char (b1 / 4) :: b64Char (b1 % 4 * 16 + b2 / 16) ::
      b64Char (b2 % 16 * 4 + b3 / 64) :: b64Char (b3 % 64) :: b64CharsOf rest

/-- Django's `urlsafe_base64_encode` on a byte string. -/
def b64urlEncode (bs : List Nat) : String := ⟨b64CharsOf bs⟩

/-! ### The token service (`views.py`) -/

/-- The fields of the `User` model the token scheme reads: `user.email`,
`user.id` (= `user.pk`) and `user.password` (the stored hash string). -/
structure User where
  email : String
  id : Int
  password : String
deriving DecidableEq

/-- The canonical string
`f"{user.email}-{user.id}-{user.password}-{t}"` hashed by both
`generate_token` and `check_token` (`t` is the already-bucketed time). -/
def tokenString (u : User) (t : Int) : String :=
  u.email ++ "-" ++ intRepr u.id ++ "-" ++ u.password ++ "-" ++ intRepr t

/-- The truncation `sha256(s.encode()).hexdigest()[:32]`, the hash-and-truncate step shared
by generation and verification. -/
def sha256trunc (s : String) : String :=
  (bytesToHex (sha256 (utf8Encode s))).take 32

/-- Embeds `PasswordResetRequest.generate_token`, with the current time passed
explicitly: `timestamp_hours = timestamp - timestamp % 3600`, then hash the
canonical string and keep the first 32 hex characters. -/
def generate_token (u : User) (now : Int) : String :=
  sha256trunc (tokenString u (now - now % 3600))

/-- Embeds `PasswordResetConfirm.check_token`, with the current time passed
explicitly: try the 24 hour buckets
`current - current % 3600 - hours * 3600` for `hours = 0..23`, succeeding
at the first recomputed token equal to the presented one. -/
def check_token (u : User) (token : String) (now : Int) : Bool :=
  (List.range 24).any fun hours =>
    token == sha256trunc (tokenString u (now - now % 3600 - (hours : Int) * 3600))

/-- Generalizes `generate_token` with the hash-and-truncate step abstracted, for
properties that idealize the truncated hash as collision-free. -/
def generateTokenH (hash : String → String) (u : User) (now : Int) : String :=
  hash (tokenString u (now - now % 3600))

/-- Generalizes `check_token` with the hash-and-truncate step abstracted, for
properties that idealize the truncated hash as collision-free. -/
def checkTokenH (hash : String → String) (u : User) (token : String) (now : Int) : Bool :=
  (List.range 24).any fun hours =>
    token == hash (tokenString u (now - now % 3600 - (hours : Int) * 3600))

/-! ### `check_token` with its `try/except` (claim C6)

The body of `check_token` runs under `try: ... except Exception: return
False`.  To model the exception channel, the clock read
(`timezone.now()`) and the hash computation are allowed to fail
(`Option`); the wrapper collapses a raised exception into `false`. -/

/-- The loop of `check_token` when the hash itself may raise. -/
def checkLoopTry (hash : String → Option String) (u : User) (token : String)
    (current : Int) : List Nat → Option Bool
  | [] => some false
  | hours :: rest => do
    let expected ← hash (tokenString u (current - current % 3600 - (hours : Int) * 3600))
    if token == expected then some true else checkLoopTry hash u token current rest

/-- The `try` body of `check_token`: read the clock, then run the loop;
`none` is a raised exception. -/
def checkTokenBody (hash : String → Option String) (u : User) (token : String)
    (clock : Option Int) : Option Bool := do
  let current ← clock
  checkLoopTry hash u token current (List.range 24)

/-- Embeds `check_token` including its `except Exception: return False` clause. -/
def checkTokenGuarded (hash : String → Option String) (u : User) (token : String)
    (clock : Option Int) : Bool :=
  (checkTokenBody hash u token clock).getD false

/-! ### The two HTTP handlers -/

/-- The mail handed to `send_mail` by `PasswordResetRequest.post`. -/
structure Mail where
  subject : String
  body : String
  fromEmail : String
  recipients : List String
deriving DecidableEq

/-- Outcome of `PasswordResetRequest.post`: 404 when the email is unknown,
otherwise a 200 after handing the reset mail to the sender. -/
inductive RequestOutcome where
  | notFound
  | sent (mail : Mail)
deriving DecidableEq

/-- Embeds `PasswordResetRequest.post`: look the user up by email (404 if absent),
generate a token, build the reset URL around the base64-encoded pk and the
token, and hand the mail to `send_mail`. -/
def password_reset_request_post (findByEmail : String → Option User)
    (scheme host fromEmail email : String) (now : Int) : RequestOutcome :=
  match findByEmail email with
  | none => .notFound
  | some user =>
    let token := generate_token user now
    let uid := b64urlEncode (utf8Encode (intRepr user.id))
    let resetUrl := scheme ++ "://" ++ host ++ "/api/v1/reset-password/" ++ uid ++ "/" ++ token
    .sent ⟨"Запрос на сброс пароля",
           "Для сброса пароля перейдите по ссылке: " ++ resetUrl,
           fromEmail, [email]⟩

/-- Which template context `PasswordResetConfirm.post` renders. -/
inductive ConfirmResponse where
  | invalidLink
  | missingFields
  | mismatch
  | tooShort
  | success
deriving DecidableEq

/-- Result of `PasswordResetConfirm.post`: the rendered response together
with the password passed to `set_password`/`save`, if any. -/
structure ConfirmOutcome where
  response : ConfirmResponse
  savedPassword : Option String
deriving DecidableEq

/-- Python truthiness of `request.POST.get(..)`: `None` and `""` are falsy. -/
def pyFalsy : Option String → Bool
  | none => true
  | some s => s == ""

/-- Embeds `PasswordResetConfirm.post`: decode the uid (decode errors and unknown
users are caught and rendered as an invalid link), check the token, then
validate the two submitted passwords; only a fully validated input reaches
`set_password` and `save`. -/
def password_reset_confirm_post (decodeUid : String → Option String)
    (getUser : String → Option User) (uidb64 token : String)
    (p1 p2 : Option String) (now : Int) : ConfirmOutcome :=
  match decodeUid uidb64 with
  | none => ⟨.invalidLink, none⟩
  | some uid =>
    match getUser uid with
    | none => ⟨.invalidLink, none⟩
    | some user =>
      if check_token user token now then
        if pyFalsy p1 || pyFalsy p2 then ⟨.missingFields, none⟩
        else
          let s1 := p1.getD ""
          let s2 := p2.getD ""
          if s1 != s2 then ⟨.mismatch, none⟩
          else if s1.length < 8 then ⟨.tooShort, none⟩
          else ⟨.success, some s1⟩
      else ⟨.invalidLink, none⟩

/-! ### Helper lemmas about the canonical string and the window scan -/

theorem tokenString_data (u : User) (t : Int) :
    (tokenString u t).data =
      u.email.data ++ ('-' :: ((intRepr u.id).data ++
        ('-' :: (u.password.data ++ ('-' :: (intRepr t).data))))) := by
  simp [tokenString, String.data_append]

theorem tokenString_inj_time (u : User) {t1 t2 : Int}
    (h : tokenString u t1 = tokenString u t2) : t1 = t2 := by
  have hd := congrArg String.data h
  rw [tokenString_data, tokenString_data] at hd
  have h3 := ((List.cons.injEq _ _ _ _).mp (List.append_cancel_left hd)).2
  have h4 := ((List.cons.injEq _ _ _ _).mp (List.append_cancel_left h3)).2
  have h5 := ((List.cons.injEq _ _ _ _).mp (List.append_cancel_left h4)).2
  exact intRepr_injective (String.ext h5)

theorem append_dash_inj : ∀ (a c b d : List Char), '-' ∉ a → '-' ∉ c →
    a ++ '-' :: b = c ++ '-' :: d → a = c ∧ b = d := by
  intro a
  induction a with
  | nil =>
    intro c b d _ hc h
    cases c with
    | nil => simpa using h
    | cons y ys =>
      exfalso
      simp only [List.nil_append, List.cons_append, List.cons.injEq] at h
      exact hc (h.1 ▸ List.mem_cons_self y ys)
  | cons x xs ih =>
    intro c b d ha hc h
    cases c with
    | nil =>
      exfalso
      simp only [List.cons_append, List.nil_append, List.cons.injEq] at h
      exact ha (h.1 ▸ List.mem_cons_self x xs)
    | cons y ys =>
      simp only [List.cons_append, List.cons.injEq] at h
      have hrec := ih ys b d (fun hm => ha (List.mem_cons_of_mem x hm))
        (fun hm => hc (List.mem_cons_of_mem y hm)) h.2
      exact ⟨by rw [h.1, hrec.1], hrec.2⟩

theorem tokenString_ne_of_password_ne (e : String) (i : Int) (p1 p2 : String)
    (t1 t2 : Int) (h1 : '-' ∉ p1.data) (h2 : '-' ∉ p2.data) (hne : p1 ≠ p2) :
    tokenString ⟨e, i, p1⟩ t1 ≠ tokenString ⟨e, i, p2⟩ t2 := by
  intro h
  have hd : e.data ++ ('-' :: ((intRepr i).data ++
        ('-' :: (p1.data ++ ('-' :: (intRepr t1).data))))) =
      e.data ++ ('-' :: ((intRepr i).data ++
        ('-' :: (p2.data ++ ('-' :: (intRepr t2).data))))) := by
    have hc := congrArg String.data h
    rwa [tokenString_data, tokenString_data] at hc
  have h4 := ((List.cons.injEq _ _ _ _).mp (List.append_cancel_left hd)).2
  have h6 := ((List.cons.injEq _ _ _ _).mp (List.append_cancel_left h4)).2
  exact hne (String.ext (append_dash_inj p1.data p2.data _ _ h1 h2 h6).1)

theorem checkTokenH_true_iff (hash : String → String) (u : User) (tok : String)
    (now : Int) :
    checkTokenH hash u tok now = true ↔
      ∃ k : Nat, k < 24 ∧
        tok = hash (tokenString u (now - now % 3600 - (k : Int) * 3600)) := by
  unfold checkTokenH
  simp [List.any_eq_true, List.mem_range, beq_iff_eq]

theorem check_token_eq_checkTokenH (u : User) (tok : String) (now : Int) :
    check_token u tok now = checkTokenH sha256trunc u tok now := rfl

theorem check_token_generate_self (u : User) (now : Int) :
    check_token u (generate_token u now) now = true := by
  rw [check_token_eq_checkTokenH]
  refine (checkTokenH_true_iff sha256trunc u _ now).mpr ⟨0, by omega, ?_⟩
  have ht : now - now % 3600 - ((0 : Nat) : Int) * 3600 = now - now % 3600 := by
    push_cast
    ring
  rw [ht]
  rfl

theorem generate_token_at_bucket (u : User) (now : Int) (k : Nat) :
    generate_token u (now - now % 3600 - (k : Int) * 3600)
      = sha256trunc (tokenString u (now - now % 3600 - (k : Int) * 3600)) := by
  unfold generate_token
  congr 2
  omega

/-! ### The claims -/

/-- C1: `check_token(user, token, now)` returns true if and only if some
`k` in `0..23` has `token` equal to the token the generate algorithm
produces for the time bucket `(now - now % 3600) - k*3600`. -/
theorem c1_check_token_iff_recent_bucket (u : User) (tok : String) (now : Int) :
    check_token u tok now = true ↔
      ∃ k : Nat, k < 24 ∧
        tok = generate_token u (now - now % 3600 - (k : Int) * 3600) := by
  rw [check_token_eq_checkTokenH, checkTokenH_true_iff]
  exact exists_congr fun k => and_congr_right fun _ => by
    rw [generate_token_at_bucket]

/-- C2: `generate_token(user, now)` is the first 32 characters of the
hexadecimal SHA-256 digest of the canonical string
`"{email}-{id}-{password_hash}-{time_bucket}"`, with
`time_bucket = now - now % 3600`. -/
theorem c2_generate_token_formula (u : User) (now : Int) :
    generate_token u now =
      (bytesToHex (sha256 (utf8Encode
        (u.email ++ "-" ++ intRepr u.id ++ "-" ++ u.password ++ "-" ++
          intRepr (now - now % 3600))))).take 32 := rfl

/-- C3: with the truncated hash idealized as injective, a token generated
at bucket `B` verifies for any `now` whose bucket is 0 to 23 buckets
forward of `B` (shown for the concrete SHA-256 instance), and fails once
`now`'s bucket is 24 or more buckets forward of `B`. -/
theorem c3_window_boundary (hash : String → String)
    (hinj : Function.Injective hash) (u : User) (tgen now : Int) :
    (0 ≤ now / 3600 - tgen / 3600 → now / 3600 - tgen / 3600 ≤ 23 →
      check_token u (generate_token u tgen) now = true) ∧
    (24 ≤ now / 3600 - tgen / 3600 →
      checkTokenH hash u (generateTokenH hash u tgen) now = false) := by
  constructor
  · intro h0 h23
    rw [check_token_eq_checkTokenH]
    refine (checkTokenH_true_iff sha256trunc u _ now).mpr
      ⟨(now / 3600 - tgen / 3600).toNat, by omega, ?_⟩
    unfold generate_token
    congr 2
    omega
  · intro h24
    unfold checkTokenH
    rw [List.any_eq_false]
    intro hours hmem
    rw [List.mem_range] at hmem
    simp only [beq_iff_eq]
    intro heq
    unfold generateTokenH at heq
    have hs := tokenString_inj_time u (hinj heq)
    omega

/-- C3 witness: bucket distance 0 verifies with the real hash, bucket
distance 24 fails with an injective hash. -/
theorem c3_window_boundary_witness :
    check_token ⟨"a@b.com", 7, "h1"⟩
        (generate_token ⟨"a@b.com", 7, "h1"⟩ 0) 0 = true ∧
    checkTokenH id ⟨"a@b.com", 7, "h1"⟩
        (generateTokenH id ⟨"a@b.com", 7, "h1"⟩ 0) 86400 = false :=
  ⟨(c3_window_boundary id (fun _ _ h => h) ⟨"a@b.com", 7, "h1"⟩ 0 0).1
      (by decide) (by decide),
   (c3_window_boundary id (fun _ _ h => h) ⟨"a@b.com", 7, "h1"⟩ 0 86400).2
      (by decide)⟩

/-- C4 counterexample: the claim fails as stated.  The `-`-delimited
canonical string is ambiguous: the user with password hash `"h-"`
generates a token at time 3600 from the string `"a@b.com-7-h--3600"`, and
after the password hash changes to `"h"`, verification at time 0 checks
bucket `-3600` (hours = 1), whose canonical string is again
`"a@b.com-7-h--3600"` — so the old token still verifies. -/
theorem c4_counterexample :
    check_token ⟨"a@b.com", 7, "h"⟩
      (generate_token ⟨"a@b.com", 7, "h-"⟩ 3600) 0 = true := by
  rw [check_token_eq_checkTokenH]
  refine (checkTokenH_true_iff sha256trunc _ _ _).mpr ⟨1, by omega, ?_⟩
  have hs : tokenString ⟨"a@b.com", 7, "h"⟩ ((0 : Int) - 0 % 3600 - ((1 : Nat) : Int) * 3600)
      = tokenString ⟨"a@b.com", 7, "h-"⟩ ((3600 : Int) - 3600 % 3600) := by decide
  rw [hs]
  rfl

/-- C4 amended: if neither the old nor the new password hash contains the
`-` delimiter character (and the truncated hash is idealized as
injective), then a token generated under the old password hash fails
verification against the updated user record at every verification
time. -/
theorem c4_password_change_invalidates (hash : String → String)
    (hinj : Function.Injective hash) (e : String) (i : Int) (p1 p2 : String)
    (tgen now : Int) (h1 : '-' ∉ p1.data) (h2 : '-' ∉ p2.data) (hne : p1 ≠ p2) :
    checkTokenH hash ⟨e, i, p2⟩ (generateTokenH hash ⟨e, i, p1⟩ tgen) now = false := by
  unfold checkTokenH
  rw [List.any_eq_false]
  intro hours hmem
  simp only [beq_iff_eq]
  intro heq
  unfold generateTokenH at heq
  exact tokenString_ne_of_password_ne e i p1 p2 _ _ h1 h2 hne (hinj heq)

/-- C4 witness for the amended statement, at dash-free distinct password
hashes and an injective hash. -/
theorem c4_password_change_invalidates_witness :
    checkTokenH id ⟨"a@b.com", 7, "h2"⟩
      (generateTokenH id ⟨"a@b.com", 7, "h1"⟩ 0) 0 = false :=
  c4_password_change_invalidates id (fun _ _ h => h) "a@b.com" 7 "h1" "h2" 0 0
    (by decide) (by decide) (by decide)

/-- C5: `generate_token` is stable across the hour bucket — equal floored
hours give equal tokens, and in particular identical inputs give an
identical token. -/
theorem c5_bucket_stability (u : User) (t1 t2 : Int)
    (h : t1 / 3600 = t2 / 3600) :
    generate_token u t1 = generate_token u t2 := by
  unfold generate_token
  congr 2
  omega

/-- C5 witness: two timestamps in the same hour bucket. -/
theorem c5_bucket_stability_witness :
    (10 : Int) / 3600 = (3599 : Int) / 3600 ∧
    generate_token ⟨"a@b.com", 7, "h1"⟩ 10
      = generate_token ⟨"a@b.com", 7, "h1"⟩ 3599 :=
  ⟨by decide, c5_bucket_stability ⟨"a@b.com", 7, "h1"⟩ 10 3599 (by decide)⟩

/-- C9: `check_token` scans only backward in time, so (with the truncated
hash idealized as injective) a token generated at an hour bucket strictly
later than the current bucket fails verification. -/
theorem c9_future_bucket_fails (hash : String → String)
    (hinj : Function.Injective hash) (u : User) (tgen now : Int)
    (hfut : now / 3600 < tgen / 3600) :
    checkTokenH hash u (generateTokenH hash u tgen) now = false := by
  unfold checkTokenH
  rw [List.any_eq_false]
  intro hours hmem
  rw [List.mem_range] at hmem
  simp only [beq_iff_eq]
  intro heq
  unfold generateTokenH at heq
  have hs := tokenString_inj_time u (hinj heq)
  omega

/-- C9 witness: a token generated one bucket in the future fails at the
current bucket. -/
theorem c9_future_bucket_fails_witness :
    checkTokenH id ⟨"a@b.com", 7, "h1"⟩
      (generateTokenH id ⟨"a@b.com", 7, "h1"⟩ 3600) 0 = false :=
  c9_future_bucket_fails id (fun _ _ h => h) ⟨"a@b.com", 7, "h1"⟩ 3600 0 (by decide)

/-- C6: `check_token`'s outcomes are exactly the booleans: when the `try`
body raises (`none`), the `except` clause yields `false` instead of
propagating, and when the body completes, its boolean is returned. -/
theorem c6_exceptions_collapse_to_false (hash : String → Option String)
    (u : User) (token : String) (clock : Option Int) :
    (checkTokenBody hash u token clock = none ∧
      checkTokenGuarded hash u token clock = false) ∨
    (∃ b, checkTokenBody hash u token clock = some b ∧
      checkTokenGuarded hash u token clock = b) := by
  cases hbody : checkTokenBody hash u token clock with
  | none =>
    left
    exact ⟨rfl, by unfold checkTokenGuarded; rw [hbody]; rfl⟩
  | some b =>
    right
    exact ⟨b, rfl, by unfold checkTokenGuarded; rw [hbody]; rfl⟩

theorem password_reset_confirm_saved_iff (decodeUid : String → Option String)
    (getUser : String → Option User) (uidb64 token : String)
    (p1 p2 : Option String) (now : Int) (pw : String) :
    (password_reset_confirm_post decodeUid getUser uidb64 token p1 p2 now).savedPassword
        = some pw ↔
      ∃ uid user, decodeUid uidb64 = some uid ∧ getUser uid = some user ∧
        check_token user token now = true ∧ p1 = some pw ∧ p2 = some pw ∧
        8 ≤ pw.length := by
  unfold password_reset_confirm_post
  rcases hdec : decodeUid uidb64 with _ | uid
  · simp
  · rcases huser : getUser uid with _ | user
    · simp [huser]
    · by_cases htok : check_token user token now = true
      · cases p1 with
        | none => simp [huser, htok, pyFalsy]
        | some s1 =>
          cases p2 with
          | none => simp [huser, htok, pyFalsy]
          | some s2 =>
            simp only [huser, htok, eq_self_iff_true, if_true, pyFalsy,
              Option.getD_some, Option.some.injEq, exists_eq_left',
              true_and]
            constructor
            · intro h
              by_cases hfal : (s1 == "" || s2 == "") = true
              · rw [if_pos hfal] at h
                exact Option.noConfusion h
              · rw [if_neg hfal] at h
                by_cases hne : (s1 != s2) = true
                · rw [if_pos hne] at h
                  exact Option.noConfusion h
                · rw [if_neg hne] at h
                  by_cases hlen : s1.length < 8
                  · rw [if_pos hlen] at h
                    exact Option.noConfusion h
                  · rw [if_neg hlen] at h
                    simp only [bne_iff_ne, ne_eq, not_not] at hne
                    have hpw : s1 = pw := Option.some.inj h
                    exact ⟨uid, user, rfl, huser, htok, hpw,
                      by rw [← hne]; exact hpw, by rw [← hpw]; omega⟩
            · rintro ⟨uid', user', rfl, hu2, ht2, hpw1, hpw2, hlen⟩
              have huu := Option.some.inj (huser.symm.trans hu2)
              subst huu
              subst hpw1
              have hne1 : (s1 == "") = false := by
                rcases hbe : s1 == "" with _ | _
                · rfl
                · rw [beq_iff_eq] at hbe
                  rw [hbe] at hlen
                  exact absurd hlen (by decide)
              rw [hpw2]
              rw [if_neg (by simp [hne1])]
              rw [if_neg (by simp)]
              rw [if_neg (by omega)]
      · simp [huser, htok]

/-- C7: the confirm handler passes a password to `set_password`/`save`
exactly when the identifier decodes, resolves to a user, the token
checks, both submitted passwords equal that password, and it is at least
8 characters long. -/
theorem c7_password_set_iff (decodeUid : String → Option String)
    (getUser : String → Option User) (uidb64 token : String)
    (p1 p2 : Option String) (now : Int) (pw : String) :
    (password_reset_confirm_post decodeUid getUser uidb64 token p1 p2 now).savedPassword
        = some pw ↔
      ∃ uid user, decodeUid uidb64 = some uid ∧ getUser uid = some user ∧
        check_token user token now = true ∧ p1 = some pw ∧ p2 = some pw ∧
        8 ≤ pw.length :=
  password_reset_confirm_saved_iff decodeUid getUser uidb64 token p1 p2 now pw

/-- C8: the request handler returns NotFound when no user has the given
email; otherwise it hands the email sender a mail for that address whose
body embeds the reset URL built from the base64-encoded user id and the
generated token. -/
theorem c8_request_handler (findByEmail : String → Option User)
    (scheme host fromEmail email : String) (now : Int) :
    (findByEmail email = none →
      password_reset_request_post findByEmail scheme host fromEmail email now
        = .notFound) ∧
    (∀ user, findByEmail email = some user →
      password_reset_request_post findByEmail scheme host fromEmail email now
        = .sent ⟨"Запрос на сброс пароля",
            "Для сброса пароля перейдите по ссылке: " ++
              (scheme ++ "://" ++ host ++ "/api/v1/reset-password/" ++
                b64urlEncode (utf8Encode (intRepr user.id)) ++ "/" ++
                generate_token user now),
            fromEmail, [email]⟩) := by
  constructor
  · intro h
    unfold password_reset_request_post
    rw [h]
  · intro user h
    unfold password_reset_request_post
    rw [h]

/-- C8 witness: an empty user store yields NotFound; a store holding the
user yields the reset mail for that user. -/
theorem c8_request_handler_witness :
    password_reset_request_post (fun _ => none) "http" "h.io" "noreply@h.io"
        "a@b.com" 0 = .notFound ∧
    password_reset_request_post (fun _ => some ⟨"a@b.com", 7, "h1"⟩) "http"
        "h.io" "noreply@h.io" "a@b.com" 0
      = .sent ⟨"Запрос на сброс пароля",
          "Для сброса пароля перейдите по ссылке: " ++
            ("http" ++ "://" ++ "h.io" ++ "/api/v1/reset-password/" ++
              b64urlEncode (utf8Encode (intRepr (7 : Int))) ++ "/" ++
              generate_token ⟨"a@b.com", 7, "h1"⟩ 0),
          "noreply@h.io", ["a@b.com"]⟩ :=
  ⟨(c8_request_handler (fun _ => none) "http" "h.io" "noreply@h.io"
      "a@b.com" 0).1 rfl,
   (c8_request_handler (fun _ => some ⟨"a@b.com", 7, "h1"⟩) "http" "h.io"
      "noreply@h.io" "a@b.com" 0).2 ⟨"a@b.com", 7, "h1"⟩ rfl⟩

/-- C10: if the token check succeeds but the submitted passwords fail
validation (a field missing or empty, the fields unequal, or the new
password shorter than 8 characters), nothing is passed to
`set_password`/`save`. -/
theorem c10_no_save_on_invalid_password (decodeUid : String → Option String)
    (getUser : String → Option User) (uidb64 token : String)
    (p1 p2 : Option String) (now : Int) (uid : String) (user : User)
    (hdec : decodeUid uidb64 = some uid) (huser : getUser uid = some user)
    (htok : check_token user token now = true)
    (hbad : pyFalsy p1 = true ∨ pyFalsy p2 = true ∨ p1.getD "" ≠ p2.getD "" ∨
      (p1.getD "").length < 8) :
    (password_reset_confirm_post decodeUid getUser uidb64 token p1 p2 now).savedPassword
      = none := by
  cases hsv : (password_reset_confirm_post decodeUid getUser uidb64 token p1 p2 now).savedPassword with
  | none => rfl
  | some pw =>
    exfalso
    obtain ⟨uid', user', _, _, _, hp1, hp2, hlen⟩ :=
      (password_reset_confirm_saved_iff decodeUid getUser uidb64 token p1 p2 now pw).mp hsv
    rcases hbad with hb | hb | hb | hb
    · rw [hp1] at hb
      simp only [pyFalsy, beq_iff_eq] at hb
      rw [hb] at hlen
      exact absurd hlen (by decide)
    · rw [hp2] at hb
      simp only [pyFalsy, beq_iff_eq] at hb
      rw [hb] at hlen
      exact absurd hlen (by decide)
    · rw [hp1, hp2] at hb
      exact hb rfl
    · rw [hp1] at hb
      simp only [Option.getD_some] at hb
      omega

/-- C10 witness: a checking token with a missing password field saves
nothing. -/
theorem c10_no_save_on_invalid_password_witness :
    (password_reset_confirm_post (fun _ => some "7")
        (fun _ => some ⟨"a@b.com", 7, "h1"⟩) "Nw"
        (generate_token ⟨"a@b.com", 7, "h1"⟩ 0) none none 0).savedPassword
      = none :=
  c10_no_save_on_invalid_password (fun _ => some "7")
    (fun _ => some ⟨"a@b.com", 7, "h1"⟩) "Nw"
    (generate_token ⟨"a@b.com", 7, "h1"⟩ 0) none none 0 "7" ⟨"a@b.com", 7, "h1"⟩
    rfl rfl (check_token_generate_self ⟨"a@b.com", 7, "h1"⟩ 0) (Or.inl rfl)

/-- C6 witness: a hash that raises makes the body raise, and the guarded
`check_token` then returns false; the theorem applied at that input. -/
theorem c6_exceptions_collapse_to_false_witness :
    (checkTokenBody (fun _ => none) ⟨"a@b.com", 7, "h1"⟩ "tok" (some 0) = none ∧
      checkTokenGuarded (fun _ => none) ⟨"a@b.com", 7, "h1"⟩ "tok" (some 0) = false) ∨
    (∃ b, checkTokenBody (fun _ => none) ⟨"a@b.com", 7, "h1"⟩ "tok" (some 0) = some b ∧
      checkTokenGuarded (fun _ => none) ⟨"a@b.com", 7, "h1"⟩ "tok" (some 0) = b) :=
  c6_exceptions_collapse_to_false (fun _ => none) ⟨"a@b.com", 7, "h1"⟩ "tok" (some 0)

end ExchangeApi
